import Mathlib

/-!
Shallow embedding of `Source/Dialogs/ConnectionMessageDisplay.h` from the
plugdata repository: the `ConnectionMessageDisplay` overlay component, its
per-channel sample queues, its text layout, its bounds computation and its
timer-driven state machine.

Conventions of the embedding:
* C++ machine floats carrying samples and geometry are modelled as `ℚ`
  (the sample path never does lossy arithmetic on them; geometry uses
  exact rational arithmetic where the source uses float arithmetic).
* C++ `int` is modelled as `ℤ`; C++ integer division truncates toward
  zero, which is `Int.tdiv`.
* The `moodycamel::ReaderWriterQueue<float>(512)` single-producer /
  single-consumer queue is modelled as a `List ℚ` with capacity 512:
  `try_enqueue` appends when there is room and otherwise drops the sample,
  `try_dequeue` pops the front.
* JUCE timers (`MultiTimer`): a timer is modelled by an `Option Nat`
  field of the state; `some i` means the timer is running with interval
  `i` milliseconds, `none` means stopped.
* The non-owning `Component::SafePointer<Connection>` is modelled as
  `Option Conn`; external destruction of the pointee is an explicit
  `invalidate` event that sets it to `none`.
-/

namespace ConnMsg

/-- Font styles used by the display (from the repository's `FontStyle`
enum; only the members used by `ConnectionMessageDisplay` are needed). -/
inductive FontStyle where
  | regular
  | semibold
deriving DecidableEq, Repr

/-- The concrete font objects the source builds while laying text out:
the first token's font (`Fonts::getSemiBoldFont()` or
`Fonts::getDefaultFont()` resized to 14), the raw default font the loop
switches to after the first styled item, and the raw semibold font used
to measure the elision marker. -/
inductive FontKind where
  | semiBold14
  | default14
  | defaultRaw
  | semiBoldRaw
deriving DecidableEq, Repr

/-- The three timer identities of the component (`enum TimerID`). -/
inductive TimerID where
  | RepaintTimer
  | MouseHoverDelay
  | MouseHoverExitDelay
deriving DecidableEq, Repr

/-- `juce::Point<int>`. -/
structure Pt where
  x : Int
  y : Int
deriving DecidableEq, Repr

/-- `juce::Rectangle<int>`. -/
structure Rect where
  x : Int
  y : Int
  w : Int
  h : Int
deriving DecidableEq, Repr

/-- `juce::Rectangle<float>`, with exact rational coordinates. -/
structure RectQ where
  x : ℚ
  y : ℚ
  w : ℚ
  h : ℚ
deriving DecidableEq, Repr

/-- One laid-out text run (`struct TextStringWithMetrics`). -/
structure TextStringWithMetrics where
  text : String
  fontStyle : FontStyle
  width : Int
deriving DecidableEq, Repr

/-- The externally owned `Connection` entity, restricted to what the
display reads from it: whether its outlet carries a signal
(`outlet->isSignal`) and the formatted message tokens
(`getMessageFormated()`). -/
structure Conn where
  isSignal : Bool
  message : List String
deriving DecidableEq, Repr

/-- Ambient UI facts the component queries from its surroundings: the
parent editor's local bounds (origin `(0,0)`, size
`parentWidth × parentHeight`), the parent's screen origin (for
`getLocalPoint(nullptr, ·)`), and the font string-measuring function
(`Font::getStringWidth`). -/
structure Env where
  parentWidth : Int
  parentHeight : Int
  parentScreenX : Int
  parentScreenY : Int
  stringWidth : FontKind → String → Int

/-- The fields of `ConnectionMessageDisplay`. -/
structure DisplayState where
  messageItemsWithFormat : List TextStringWithMetrics
  activeConnection : Option Conn
  mouseDelay : Nat
  mousePosition : Pt
  constrainedBounds : Rect
  lastSamples : List (List ℚ)
  lastNumChannels : Nat
  sampleQueue : List (List ℚ)
  isSignalDisplay : Bool
  visible : Bool
  bounds : Rect
  repaintInterval : Option Nat
  hoverInterval : Option Nat
  exitInterval : Option Nat
  connectionListenerSet : Bool
deriving Repr

/-- Pd's DSP block size (`DEFDACBLKSIZE`): 64 samples per channel. -/
def DEFDACBLKSIZE : Nat := 64

/-- Queue capacity: each `moodycamel::ReaderWriterQueue<float>` is
constructed with capacity 512. -/
def queueCapacity : Nat := 512

/-- `try_enqueue`: append if below capacity, otherwise drop the sample
(the producer never blocks and never grows the queue). -/
def tryEnqueue (q : List ℚ) (x : ℚ) : List ℚ :=
  if q.length < queueCapacity then q ++ [x] else q

/-- `try_dequeue`: pop the front element when the queue is non-empty. -/
def tryDequeue (q : List ℚ) : Option (ℚ × List ℚ) :=
  match q with
  | [] => none
  | x :: rest => some (x, rest)

/-- Overwrite position `i` of `l` with `x`, in place (`l[i] = x` on a C
array; out-of-range writes cannot happen at the call sites). -/
def setAt (l : List ℚ) (i : Nat) (x : ℚ) : List ℚ := l.set i x

/-- The drain loop of `updateSignalGraph` for one channel:
`for (int i = 0; i < 512; i++) { if (try_dequeue(sample)) lastSamples[ch][i] = sample; else break; }`.
`fuel` is the number of remaining loop iterations, `i` the current write
index. Returns the remaining queue and the updated display array. -/
def drainLoop : Nat → Nat → List ℚ → List ℚ → List ℚ × List ℚ
  | 0, _, q, arr => (q, arr)
  | fuel + 1, i, q, arr =>
    match q with
    | [] => ([], arr)
    | x :: rest => drainLoop fuel (i + 1) rest (setAt arr i x)

/-- One channel's drain: 512 loop iterations starting at index 0. -/
def drainChannel (q : List ℚ) (arr : List ℚ) : List ℚ × List ℚ :=
  drainLoop 512 0 q arr

/-- The channel loop of `updateSignalGraph`: drain channels
`ch = 0, …, n-1` in order, threading the queue array and the display
array. `fuel` counts the remaining channels. -/
def drainAllAux : Nat → Nat → List (List ℚ) → List (List ℚ) →
    List (List ℚ) × List (List ℚ)
  | 0, _, qs, arrs => (qs, arrs)
  | fuel + 1, ch, qs, arrs =>
    let res := drainChannel (qs.getD ch []) (arrs.getD ch [])
    drainAllAux fuel (ch + 1) (qs.set ch res.1) (arrs.set ch res.2)

/-- Drain channels `0, …, n-1`. -/
def drainAll (n : Nat) (qs arrs : List (List ℚ)) :
    List (List ℚ) × List (List ℚ) :=
  drainAllAux n 0 qs arrs

/-- Apply `f` to the element at position `i` (C `array[i] = f(array[i])`). -/
def modifyAt (f : List ℚ → List ℚ) : Nat → List (List ℚ) → List (List ℚ)
  | _, [] => []
  | 0, q :: qs => f q :: qs
  | n + 1, q :: qs => q :: modifyAt f n qs

/-- The push loop of `updateSignalData`:
`for n in [0, DEFDACBLKSIZE*numChannels): sampleQueue[n / DEFDACBLKSIZE].try_enqueue(output[n])`. -/
def enqueueBlock (numChannels : Nat) (output : List ℚ)
    (qs : List (List ℚ)) : List (List ℚ) :=
  (List.range (DEFDACBLKSIZE * numChannels)).foldl
    (fun qs n => modifyAt (fun q => tryEnqueue q (output.getD n 0)) (n / DEFDACBLKSIZE) qs) qs

/-! ### Text layout (`updateTextString`) -/

/-- The count-and-ellipsis marker added when the token layout overflows:
text `"(k)..."` where `k` is the number of tokens not laid out, styled
semibold and measured with the raw semibold font. -/
def elideItem (env : Env) (k : Nat) : TextStringWithMetrics :=
  let t := "(" ++ toString k ++ ")..."
  ⟨t, FontStyle.semibold, env.stringWidth FontKind.semiBoldRaw t⟩

/-- The token layout loop of `updateTextString`. Walks the remaining
tokens carrying the loop index `i`, the accumulated
`totalStringWidth`, the current font style and the current measuring
font; `size` is the full token count. Tokens other than the first and
last get a trailing comma; at the first token whose width would push
the total past `halfW` the remainder is replaced by `elideItem` and the
loop breaks; after any item laid out in a non-regular style the style
and font switch to regular/default. Returns the laid-out items and the
final `totalStringWidth`. -/
def layoutRun (env : Env) (halfW : Int) (size : Nat) :
    List String → Nat → Int → FontStyle → FontKind →
    List TextStringWithMetrics × Int
  | [], _, total, _, _ => ([], total)
  | t :: rest, i, total, style, font =>
    let item := t ++ (if i = 0 ∨ i = size - 1 then "" else ",")
    let w := env.stringWidth font item
    if total + w > halfW then
      let e := elideItem env (size - i)
      ([e], total + e.width + 4)
    else
      let next :=
        if style ≠ FontStyle.regular then
          layoutRun env halfW size rest (i + 1) (total + w + 4)
            FontStyle.regular FontKind.defaultRaw
        else
          layoutRun env halfW size rest (i + 1) (total + w + 4) style font
      (⟨item, style, w⟩ :: next.1, next.2)

/-- Initial font style: semibold when there is a real message. -/
def initialStyle (haveMessage : Bool) : FontStyle :=
  if haveMessage then FontStyle.semibold else FontStyle.regular

/-- Initial measuring font (sized to 14 by `setSizeAndStyle`). -/
def initialFont (haveMessage : Bool) : FontKind :=
  if haveMessage then FontKind.semiBold14 else FontKind.default14

/-- Full token layout: loop from index 0 with
`totalStringWidth = (8 * 2) + 4`. -/
def layoutTokens (env : Env) (halfW : Int) (haveMessage : Bool)
    (toks : List String) : List TextStringWithMetrics × Int :=
  layoutRun env halfW toks.length toks 0 ((8 * 2) + 4)
    (initialStyle haveMessage) (initialFont haveMessage)

/-- `haveMessage` test and token list substitution: when
`textString[0]` is empty the display shows `"no message yet"`. -/
def effectiveMessage (c : Conn) : Bool × List String :=
  if (c.message.headD "").isEmpty then (false, ["no message yet"])
  else (true, c.message)

/-! ### Geometry -/

/-- `juce::jlimit` (requires `lo ≤ hi` in JUCE; plain clamp here). -/
def jlimit (lo hi v : Int) : Int :=
  if v < lo then lo else if hi < v then hi else v

/-- `juce::jmap<int>`: affine range mapping in C++ `int` arithmetic
(truncating division). -/
def jmapInt (v a b c d : Int) : Int :=
  c + Int.tdiv ((d - c) * (v - a)) (b - a)

/-- `juce::jmap<float>`, with exact rational arithmetic standing in for
float arithmetic. -/
def jmapQ (v a b c d : ℚ) : ℚ :=
  c + (d - c) * (v - a) / (b - a)

/-- `Point<int>::translated`. -/
def translatedPt (p : Pt) (dx dy : Int) : Pt := ⟨p.x + dx, p.y + dy⟩

/-- `getParentComponent()->getLocalPoint(nullptr, p)`: screen
coordinates to parent-local coordinates. -/
def getLocalPointFromScreen (env : Env) (p : Pt) : Pt :=
  ⟨p.x - env.parentScreenX, p.y - env.parentScreenY⟩

/-- `Rectangle<int>::setCentre` (integer division truncates). -/
def setCentre (r : Rect) (c : Pt) : Rect :=
  ⟨c.x - Int.tdiv r.w 2, c.y - Int.tdiv r.h 2, r.w, r.h⟩

/-- `Rectangle<int>::constrainedWithin(area)`: shrink to fit, then
clamp the position so the rectangle lies inside `area`. -/
def constrainedWithin (r area : Rect) : Rect :=
  let nw := min r.w area.w
  let nh := min r.h area.h
  ⟨jlimit area.x (area.x + area.w - nw) r.x,
   jlimit area.y (area.y + area.h - nh) r.y, nw, nh⟩

/-- `getParentComponent()->getLocalBounds()`. -/
def parentLocalBounds (env : Env) : Rect :=
  ⟨0, 0, env.parentWidth, env.parentHeight⟩

/-- `updateBoundsFromProposed`: centre the proposed rectangle on the
mouse position (in parent-local coordinates, shifted up by half the
current height, float `getHeight() * 0.5` truncated to int), constrain
it within the parent's local bounds, store it and apply it as the
component's bounds (`setBounds` is skipped when equal, with the same
resulting state). -/
def updateBoundsFromProposed (env : Env) (proposedPosition : Rect)
    (s : DisplayState) : DisplayState :=
  let centre := translatedPt (getLocalPointFromScreen env s.mousePosition)
    0 (-(Int.tdiv s.bounds.h 2))
  let proposed := setCentre proposedPosition centre
  let cb := constrainedWithin proposed (parentLocalBounds env)
  { s with constrainedBounds := cb, bounds := cb }

/-! ### The component's operations -/

/-- `updateTextString(isHoverEntered)`: lay the formatted message tokens
out, store them, and widen the bounds when the new total width exceeds
the current width or on hover entry. (The source dereferences
`activeConnection` unconditionally; every call site guards it, so the
`none` case is unreachable there.) -/
def updateTextString (env : Env) (isHoverEntered : Bool)
    (s : DisplayState) : DisplayState :=
  match s.activeConnection with
  | none => s
  | some c =>
    let hm := (effectiveMessage c).1
    let textString := (effectiveMessage c).2
    let halfEditorWidth := Int.tdiv env.parentWidth 2
    let res := layoutTokens env halfEditorWidth hm textString
    let s1 := { s with messageItemsWithFormat := res.1 }
    if res.2 > s1.bounds.w ∨ isHoverEntered then
      updateBoundsFromProposed env (Rect.mk 0 0 res.2 36) s1
    else s1

/-- `updateSignalGraph`: drain every channel below `lastNumChannels`
into the display arrays and recompute the bounds from the channel
count. -/
def updateSignalGraph (env : Env) (s : DisplayState) : DisplayState :=
  match s.activeConnection with
  | none => s
  | some _ =>
    let res := drainAll s.lastNumChannels s.sampleQueue s.lastSamples
    let s1 := { s with sampleQueue := res.1, lastSamples := res.2 }
    updateBoundsFromProposed env
      (Rect.mk 0 0 130 (jmapInt (s.lastNumChannels : Int) 1 8 50 150)) s1

/-- `hideDisplay`: detach the listener when a connection is still
referenced, stop the repaint timer, hide, and clear the reference. -/
def hideDisplay (s : DisplayState) : DisplayState :=
  { s with
    connectionListenerSet :=
      if s.activeConnection.isSome then false else s.connectionListenerSet
    repaintInterval := none
    visible := false
    activeConnection := none }

/-- The lambda `clearSignalDisplayBuffer` in `setConnection`: dequeue
every channel's queue until empty and zero the display arrays (the
arrays are a fixed `float[8][512]`). -/
def clearSignalDisplayBuffer (s : DisplayState) : DisplayState :=
  { s with
    sampleQueue := List.replicate 8 []
    lastSamples := List.replicate 8 (List.replicate 512 (0 : ℚ)) }

/-- `setConnection(connection, screenPosition)`. Mirrors the source:
early-out when old and new are both null; otherwise adopt the new
reference; a live reference records the mouse position and signal
flag, starts the hover timer with the current `mouseDelay`, stops the
exit timer, and starts the repaint timer at `1000 / 10` ms (signal,
after clearing the buffers, registering the listener and refreshing the
graph) or `1000 / 60` ms (message, refreshing the text); a null
reference hides the display, zeroes `mouseDelay`, stops the hover timer
and arms the 500 ms exit timer. -/
def setConnection (env : Env) (connection : Option Conn)
    (screenPosition : Pt) (s : DisplayState) : DisplayState :=
  if s.activeConnection = none ∧ connection = none then s
  else
    let s1 := { s with activeConnection := connection }
    match connection with
    | some c =>
      let s2 := { s1 with
        mousePosition := screenPosition
        isSignalDisplay := c.isSignal
        hoverInterval := some s1.mouseDelay
        exitInterval := none }
      if c.isSignal then
        let s3 := clearSignalDisplayBuffer s2
        let s4 := { s3 with
          connectionListenerSet := true
          repaintInterval := some (1000 / 10) }
        updateSignalGraph env s4
      else
        let s3 := { s2 with repaintInterval := some (1000 / 60) }
        updateTextString env true s3
    | none =>
      let s2 := hideDisplay s1
      { s2 with
        mouseDelay := 0
        hoverInterval := none
        exitInterval := some 500 }

/-- `updateSignalData`: audio-side producer push. Reads the latest
block from the connection (`numChannels` channels of `DEFDACBLKSIZE`
de-interleaved samples in `output`); when some channels were produced,
records the channel count and enqueues each sample on its channel's
queue. -/
def updateSignalData (numChannels : Nat) (output : List ℚ)
    (s : DisplayState) : DisplayState :=
  match s.activeConnection with
  | none => s
  | some _ =>
    if numChannels ≠ 0 then
      { s with
        lastNumChannels := numChannels
        sampleQueue := enqueueBlock numChannels output s.sampleQueue }
    else s

/-- `timerCallback(timerID)`. -/
def timerCallback (env : Env) (timerID : TimerID)
    (s : DisplayState) : DisplayState :=
  match timerID with
  | .RepaintTimer =>
    match s.activeConnection with
    | some _ =>
      if s.isSignalDisplay then updateSignalGraph env s
      else updateTextString env false s
    | none => hideDisplay s
  | .MouseHoverDelay =>
    match s.activeConnection with
    | some _ =>
      let s1 := if s.isSignalDisplay then s else updateTextString env false s
      { s1 with visible := true }
    | none => hideDisplay s
  | .MouseHoverExitDelay =>
    { s with mouseDelay := 500, exitInterval := none }

/-- External destruction of the referenced `Connection`: the
`SafePointer` observes it and reads back as null; nothing else of the
display's state changes. -/
def invalidateConn (s : DisplayState) : DisplayState :=
  { s with activeConnection := none }

/-- The constructed component: 36×36, invisible, hover delay 500 ms, no
timers running, empty queues. (`lastSamples` and `isSignalDisplay` are
uninitialised in the source; the model picks zeros / `false`.) -/
def initState : DisplayState :=
  { messageItemsWithFormat := []
    activeConnection := none
    mouseDelay := 500
    mousePosition := ⟨0, 0⟩
    constrainedBounds := ⟨0, 0, 0, 0⟩
    lastSamples := List.replicate 8 (List.replicate 512 (0 : ℚ))
    lastNumChannels := 1
    sampleQueue := List.replicate 8 []
    isSignalDisplay := false
    visible := false
    bounds := ⟨0, 0, 36, 36⟩
    repaintInterval := none
    hoverInterval := none
    exitInterval := none
    connectionListenerSet := false }

/-! ### The renderer (`paint`)

The paint routine is modelled as a function from the display state to
the list of drawing primitives it emits: the rounded background
rectangles are determined by `internalBounds` (recorded once), then
either one oscilloscope trace plus one numeric readout per channel
(signal mode) or the laid-out text runs (text mode). The numeric
readout samples `lastSamples[ch][rand() % 512]`: `rand()` reads the C
library's global PRNG, which is not part of the component's state, so
the model takes the sequence of values `rand()` returns (one per
channel, in channel order) as an explicit argument `randSeq`. Colours
and the cached drop-shadow image are omitted: they are fixed by the
theme and by `internalBounds`. -/

/-- Truncation of a rational toward zero: the C++ float→int
conversion. -/
def qtrunc (q : ℚ) : Int := if 0 ≤ q then ⌊q⌋ else -⌊-q⌋

/-- `Rectangle<int>::reduced(d)` (size clamped at zero, as in JUCE's
`expanded`). -/
def reducedRect (r : Rect) (d : Int) : Rect :=
  ⟨r.x + d, r.y + d, max 0 (r.w - 2 * d), max 0 (r.h - 2 * d)⟩

/-- `Rectangle<int>::toFloat()`. -/
def toRectQ (r : Rect) : RectQ := ⟨(r.x : ℚ), (r.y : ℚ), (r.w : ℚ), (r.h : ℚ)⟩

/-- `Rectangle<float>::reduced(d)`. -/
def reducedQ (r : RectQ) (d : ℚ) : RectQ :=
  ⟨r.x + d, r.y + d, max 0 (r.w - 2 * d), max 0 (r.h - 2 * d)⟩

/-- `Rectangle<float>::expanded(d)`. -/
def expandedQ (r : RectQ) (d : ℚ) : RectQ :=
  ⟨r.x - d, r.y - d, max 0 (r.w + 2 * d), max 0 (r.h + 2 * d)⟩

/-- `Rectangle<float>::removeFromTop(amount)`: the removed top slice. -/
def removeFromTopSlice (r : RectQ) (amount : ℚ) : RectQ :=
  ⟨r.x, r.y, r.w, min amount r.h⟩

/-- `Rectangle<float>::removeFromTop(amount)`: what remains of `r`. -/
def removeFromTopRest (r : RectQ) (amount : ℚ) : RectQ :=
  ⟨r.x, r.y + min amount r.h, r.w, r.h - min amount r.h⟩

/-- `getLocalBounds()`. -/
def localBounds (s : DisplayState) : Rect := ⟨0, 0, s.bounds.w, s.bounds.h⟩

/-- `lastSamples[ch][i]`. -/
def sampleAt (s : DisplayState) (ch i : Nat) : ℚ :=
  (s.lastSamples.getD ch []).getD i 0

/-- The integer abscissas the oscilloscope loop visits:
`for (int x = channelBounds.getX() + 1; x < channelBounds.getRight(); x++)`
(the loop variable is an `int` initialised from a float, compared
against the float right edge). -/
def xIter (cb : RectQ) : List Int :=
  let x0 := qtrunc (cb.x + 1)
  (List.range (⌈cb.x + cb.w⌉ - x0).toNat).map (fun k => x0 + (k : Int))

/-- One channel's oscilloscope polyline: the initial point at the left
edge from sample 0, then one point per abscissa, whose sample index is
`jmap<int>(x, getX(), getRight(), 0, 512)` (float bounds truncated to
int by the conversion; the in-range indices the geometry produces are
taken as naturals). -/
def tracePoints (s : DisplayState) (ch : Nat) (cb : RectQ) : List (ℚ × ℚ) :=
  (cb.x, jmapQ (sampleAt s ch 0) (-1) 1 cb.y (cb.y + cb.h)) ::
    (xIter cb).map (fun x =>
      let index := jmapInt x (qtrunc cb.x) (qtrunc (cb.x + cb.w)) 0 512
      ((x : ℚ), jmapQ (sampleAt s ch index.toNat) (-1) 1 cb.y (cb.y + cb.h)))

/-- The readout's background box:
`channelBounds.expanded(5).removeFromBottom(16).removeFromRight(32)`. -/
def readoutBox (cb : RectQ) : RectQ :=
  let e := expandedQ cb 5
  let mh := min 16 e.h
  let b := RectQ.mk e.x (e.y + e.h - mh) e.w mh
  let mw := min 32 b.w
  RectQ.mk (b.x + b.w - mw) b.y mw b.h

/-- What `paint` draws for one channel; `randv` is the value `rand()`
returned for this channel's readout. -/
structure ChannelRender where
  trace : List (ℚ × ℚ)
  readoutBox : RectQ
  readout : ℚ
deriving DecidableEq, Repr

/-- Default channel render (for safe indexing in statements). -/
def ChannelRender.empty : ChannelRender := ⟨[], ⟨0, 0, 0, 0⟩, 0⟩

/-- One channel of the paint loop: slice the remaining bounds, shrink
by 5, draw the trace, the readout box, and the readout value
`lastSamples[ch][rand() % 512]`. -/
def renderChannel (s : DisplayState) (randv ch : Nat) (cbFull : RectQ) :
    ChannelRender :=
  let cb := reducedQ cbFull 5
  { trace := tracePoints s ch cb
    readoutBox := readoutBox cb
    readout := sampleAt s ch (randv % 512) }

/-- The channel loop of `paint`'s signal branch: channels are drawn top
to bottom, each taking `totalHeight / max(lastNumChannels, 1)` off the
top of the remaining internal bounds. `fuel` counts remaining
channels. -/
def renderChannelsAux (s : DisplayState) (randSeq : Nat → Nat)
    (totalHeight : ℚ) : Nat → Nat → RectQ → List ChannelRender
  | 0, _, _ => []
  | fuel + 1, ch, internal =>
    let amount := totalHeight / (max (s.lastNumChannels : ℚ) 1)
    renderChannel s (randSeq ch) ch (removeFromTopSlice internal amount) ::
      renderChannelsAux s randSeq totalHeight fuel (ch + 1)
        (removeFromTopRest internal amount)

/-- A text run drawn at abscissa `x` with the item's width; the loop
advances `x` by `width + 4` (`startPostionX`). -/
def textRun : List TextStringWithMetrics → Int →
    List (TextStringWithMetrics × Int)
  | [], _ => []
  | it :: rest, x => (it, x) :: textRun rest (x + it.width + 4)

/-- Everything `paint` emits that depends on the state. -/
structure RenderOutput where
  shadowArea : RectQ
  signalChannels : List ChannelRender
  textItems : List (TextStringWithMetrics × Int)
deriving DecidableEq, Repr

/-- `paint`. `randSeq n` is the value the `n`-th call to `rand()`
returns during this invocation (one call per channel, in channel
order); the display state itself does not determine it. Note the
channel loop divides by `max(lastNumChannels, 1)` but iterates
`lastNumChannels` times. -/
def paint (randSeq : Nat → Nat) (s : DisplayState) : RenderOutput :=
  let internal := toRectQ (reducedRect (localBounds s) 8)
  if s.isSignalDisplay then
    { shadowArea := internal
      signalChannels :=
        renderChannelsAux s randSeq internal.h s.lastNumChannels 0 internal
      textItems := [] }
  else
    { shadowArea := internal
      signalChannels := []
      textItems := textRun s.messageItemsWithFormat (8 + 4) }

/-- Whether timer `t` is currently running. -/
def timerRunning (t : TimerID) (s : DisplayState) : Bool :=
  match t with
  | .RepaintTimer => s.repaintInterval.isSome
  | .MouseHoverDelay => s.hoverInterval.isSome
  | .MouseHoverExitDelay => s.exitInterval.isSome

/-! ### Reachable states

`Reach` closes the initial state under every way the outside world
drives the component: `setConnection` calls, ticks of running timers,
audio-side data pushes, and external destruction of the referenced
connection. `ReachUI` is the same machine without external
destruction (the reference only changes through `setConnection`). -/

inductive Reach (env : Env) : DisplayState → Prop where
  | init : Reach env initState
  | setConn {s} (c : Option Conn) (p : Pt) :
      Reach env s → Reach env (setConnection env c p s)
  | tick {s} (t : TimerID) : Reach env s → timerRunning t s = true →
      Reach env (timerCallback env t s)
  | push {s} (numChannels : Nat) (output : List ℚ) :
      Reach env s → Reach env (updateSignalData numChannels output s)
  | invalidate {s} : Reach env s → Reach env (invalidateConn s)

inductive ReachUI (env : Env) : DisplayState → Prop where
  | init : ReachUI env initState
  | setConn {s} (c : Option Conn) (p : Pt) :
      ReachUI env s → ReachUI env (setConnection env c p s)
  | tick {s} (t : TimerID) : ReachUI env s → timerRunning t s = true →
      ReachUI env (timerCallback env t s)
  | push {s} (numChannels : Nat) (output : List ℚ) :
      ReachUI env s → ReachUI env (updateSignalData numChannels output s)

/-! ### Frame lemmas: which fields each operation leaves alone -/

@[simp] theorem updateBounds_visible (env : Env) (r : Rect) (s : DisplayState) :
    (updateBoundsFromProposed env r s).visible = s.visible := rfl

@[simp] theorem updateBounds_activeConnection (env : Env) (r : Rect) (s : DisplayState) :
    (updateBoundsFromProposed env r s).activeConnection = s.activeConnection := rfl

@[simp] theorem updateBounds_repaintInterval (env : Env) (r : Rect) (s : DisplayState) :
    (updateBoundsFromProposed env r s).repaintInterval = s.repaintInterval := rfl

@[simp] theorem updateBounds_hoverInterval (env : Env) (r : Rect) (s : DisplayState) :
    (updateBoundsFromProposed env r s).hoverInterval = s.hoverInterval := rfl

@[simp] theorem updateBounds_exitInterval (env : Env) (r : Rect) (s : DisplayState) :
    (updateBoundsFromProposed env r s).exitInterval = s.exitInterval := rfl

@[simp] theorem updateBounds_sampleQueue (env : Env) (r : Rect) (s : DisplayState) :
    (updateBoundsFromProposed env r s).sampleQueue = s.sampleQueue := rfl

@[simp] theorem updateBounds_lastSamples (env : Env) (r : Rect) (s : DisplayState) :
    (updateBoundsFromProposed env r s).lastSamples = s.lastSamples := rfl

@[simp] theorem updateBounds_mouseDelay (env : Env) (r : Rect) (s : DisplayState) :
    (updateBoundsFromProposed env r s).mouseDelay = s.mouseDelay := rfl

theorem updateTextString_frame (env : Env) (hov : Bool) (s : DisplayState) :
    (updateTextString env hov s).visible = s.visible ∧
    (updateTextString env hov s).activeConnection = s.activeConnection ∧
    (updateTextString env hov s).repaintInterval = s.repaintInterval ∧
    (updateTextString env hov s).hoverInterval = s.hoverInterval ∧
    (updateTextString env hov s).exitInterval = s.exitInterval ∧
    (updateTextString env hov s).sampleQueue = s.sampleQueue ∧
    (updateTextString env hov s).lastSamples = s.lastSamples ∧
    (updateTextString env hov s).mouseDelay = s.mouseDelay := by
  unfold updateTextString
  cases h : s.activeConnection with
  | none => exact ⟨rfl, h, rfl, rfl, rfl, rfl, rfl, rfl⟩
  | some c =>
    dsimp only
    split <;> exact ⟨rfl, rfl, rfl, rfl, rfl, rfl, rfl, rfl⟩

theorem updateSignalGraph_frame (env : Env) (s : DisplayState) :
    (updateSignalGraph env s).visible = s.visible ∧
    (updateSignalGraph env s).activeConnection = s.activeConnection ∧
    (updateSignalGraph env s).repaintInterval = s.repaintInterval ∧
    (updateSignalGraph env s).hoverInterval = s.hoverInterval ∧
    (updateSignalGraph env s).exitInterval = s.exitInterval ∧
    (updateSignalGraph env s).mouseDelay = s.mouseDelay := by
  unfold updateSignalGraph
  cases h : s.activeConnection with
  | none => exact ⟨rfl, h, rfl, rfl, rfl, rfl⟩
  | some c => exact ⟨rfl, rfl, rfl, rfl, rfl, rfl⟩

@[simp] theorem hideDisplay_visible (s : DisplayState) :
    (hideDisplay s).visible = false := rfl

@[simp] theorem hideDisplay_activeConnection (s : DisplayState) :
    (hideDisplay s).activeConnection = none := rfl

@[simp] theorem hideDisplay_repaintInterval (s : DisplayState) :
    (hideDisplay s).repaintInterval = none := rfl

@[simp] theorem hideDisplay_hoverInterval (s : DisplayState) :
    (hideDisplay s).hoverInterval = s.hoverInterval := rfl

@[simp] theorem hideDisplay_exitInterval (s : DisplayState) :
    (hideDisplay s).exitInterval = s.exitInterval := rfl

@[simp] theorem hideDisplay_sampleQueue (s : DisplayState) :
    (hideDisplay s).sampleQueue = s.sampleQueue := rfl

@[simp] theorem hideDisplay_lastSamples (s : DisplayState) :
    (hideDisplay s).lastSamples = s.lastSamples := rfl

theorem updateSignalData_frame (n : Nat) (out : List ℚ) (s : DisplayState) :
    (updateSignalData n out s).visible = s.visible ∧
    (updateSignalData n out s).activeConnection = s.activeConnection ∧
    (updateSignalData n out s).repaintInterval = s.repaintInterval ∧
    (updateSignalData n out s).hoverInterval = s.hoverInterval ∧
    (updateSignalData n out s).exitInterval = s.exitInterval ∧
    (updateSignalData n out s).mouseDelay = s.mouseDelay ∧
    (updateSignalData n out s).lastSamples = s.lastSamples := by
  unfold updateSignalData
  cases h : s.activeConnection with
  | none => exact ⟨rfl, h, rfl, rfl, rfl, rfl, rfl⟩
  | some c =>
    dsimp only
    split
    · exact ⟨rfl, rfl, rfl, rfl, rfl, rfl, rfl⟩
    · exact ⟨rfl, h, rfl, rfl, rfl, rfl, rfl⟩

/-! ### Queue-capacity lemmas -/

theorem tryEnqueue_length_le (q : List ℚ) (x : ℚ) (h : q.length ≤ 512) :
    (tryEnqueue q x).length ≤ 512 := by
  unfold tryEnqueue queueCapacity
  split
  · next hlt =>
    simp only [List.length_append, List.length_singleton]
    omega
  · exact h

theorem tryEnqueue_full (q : List ℚ) (x : ℚ) (h : q.length = 512) :
    tryEnqueue q x = q := by
  unfold tryEnqueue queueCapacity
  rw [h]
  simp

theorem getD_length_le (qs : List (List ℚ)) (ch : Nat)
    (h : ∀ q ∈ qs, q.length ≤ 512) : (qs.getD ch []).length ≤ 512 := by
  by_cases hch : ch < qs.length
  · rw [List.getD_eq_getElem?_getD, List.getElem?_eq_getElem hch, Option.getD_some]
    exact h _ (List.getElem_mem hch)
  · rw [List.getD_eq_default _ _ (Nat.le_of_not_lt hch)]
    simp

theorem modifyAt_bound (f : List ℚ → List ℚ)
    (hf : ∀ q, q.length ≤ 512 → (f q).length ≤ 512) :
    ∀ (i : Nat) (qs : List (List ℚ)),
      (∀ q ∈ qs, q.length ≤ 512) →
      ∀ q ∈ modifyAt f i qs, q.length ≤ 512 := by
  intro i
  induction i with
  | zero =>
    intro qs hqs q hq
    match qs, hq with
    | q0 :: rest, hq =>
      rcases List.mem_cons.mp hq with h | h
      · subst h; exact hf q0 (hqs q0 (List.mem_cons_self _ _))
      · exact hqs q (List.mem_cons_of_mem _ h)
  | succ n ih =>
    intro qs hqs q hq
    match qs, hq with
    | q0 :: rest, hq =>
      rcases List.mem_cons.mp hq with h | h
      · subst h; exact hqs q (List.mem_cons_self _ _)
      · exact ih rest (fun r hr => hqs r (List.mem_cons_of_mem _ hr)) q h

theorem enqueueBlock_bound (n : Nat) (out : List ℚ) (qs : List (List ℚ))
    (h : ∀ q ∈ qs, q.length ≤ 512) :
    ∀ q ∈ enqueueBlock n out qs, q.length ≤ 512 := by
  unfold enqueueBlock
  generalize List.range (DEFDACBLKSIZE * n) = idxs
  induction idxs generalizing qs with
  | nil => exact h
  | cons j rest ih =>
    intro q hq
    refine ih (modifyAt (fun q => tryEnqueue q (out.getD j 0)) (j / DEFDACBLKSIZE) qs) ?_ q hq
    exact modifyAt_bound _ (fun r hr => tryEnqueue_length_le r _ hr) _ qs h

theorem drainLoop_queue_le (fuel : Nat) :
    ∀ (i : Nat) (q arr : List ℚ), (drainLoop fuel i q arr).1.length ≤ q.length := by
  induction fuel with
  | zero => intro i q arr; exact Nat.le_refl _
  | succ n ih =>
    intro i q arr
    cases q with
    | nil => simp [drainLoop]
    | cons x rest =>
      calc (drainLoop (n + 1) i (x :: rest) arr).1.length
          = (drainLoop n (i + 1) rest (setAt arr i x)).1.length := rfl
        _ ≤ rest.length := ih _ _ _
        _ ≤ (x :: rest).length := by simp

theorem drainAllAux_bound (fuel : Nat) :
    ∀ (ch : Nat) (qs arrs : List (List ℚ)),
      (∀ q ∈ qs, q.length ≤ 512) →
      ∀ q ∈ (drainAllAux fuel ch qs arrs).1, q.length ≤ 512 := by
  induction fuel with
  | zero => intro ch qs arrs h; exact h
  | succ n ih =>
    intro ch qs arrs h q hq
    refine ih (ch + 1) _ _ ?_ q hq
    intro r hr
    rcases List.mem_or_eq_of_mem_set hr with h1 | h1
    · exact h r h1
    · rw [h1]
      exact Nat.le_trans (drainLoop_queue_le _ _ _ _) (getD_length_le _ _ h)

theorem updateSignalGraph_bound (env : Env) (s : DisplayState)
    (h : ∀ q ∈ s.sampleQueue, q.length ≤ 512) :
    ∀ q ∈ (updateSignalGraph env s).sampleQueue, q.length ≤ 512 := by
  unfold updateSignalGraph
  cases s.activeConnection with
  | none => exact h
  | some c => exact drainAllAux_bound _ _ _ _ h

/-! ### Field characterisations of `setConnection` -/

/-- `setConnection` with both the old and the new reference null is the
identity (the early return at the top of the function). -/
theorem setConnection_null_null (env : Env) (p : Pt) (s : DisplayState)
    (h : s.activeConnection = none) : setConnection env none p s = s := by
  unfold setConnection
  rw [if_pos ⟨h, rfl⟩]

theorem updateSignalGraph_isSignal (env : Env) (s : DisplayState) :
    (updateSignalGraph env s).isSignalDisplay = s.isSignalDisplay := by
  unfold updateSignalGraph
  cases s.activeConnection <;> rfl

theorem updateTextString_isSignal (env : Env) (hov : Bool) (s : DisplayState) :
    (updateTextString env hov s).isSignalDisplay = s.isSignalDisplay := by
  unfold updateTextString
  cases s.activeConnection with
  | none => rfl
  | some c =>
    dsimp only
    split <;> rfl

theorem setConnection_some_fields (env : Env) (c : Conn) (p : Pt)
    (s : DisplayState) :
    (setConnection env (some c) p s).hoverInterval = some s.mouseDelay ∧
    (setConnection env (some c) p s).exitInterval = none ∧
    (setConnection env (some c) p s).visible = s.visible ∧
    (setConnection env (some c) p s).activeConnection = some c ∧
    (setConnection env (some c) p s).repaintInterval =
      some (if c.isSignal then 1000 / 10 else 1000 / 60) ∧
    (setConnection env (some c) p s).mouseDelay = s.mouseDelay ∧
    (setConnection env (some c) p s).isSignalDisplay = c.isSignal := by
  unfold setConnection
  rw [if_neg (by simp)]
  dsimp only
  split
  · next hsig =>
    exact ⟨((updateSignalGraph_frame env _).2.2.2.1).trans rfl,
      ((updateSignalGraph_frame env _).2.2.2.2.1).trans rfl,
      ((updateSignalGraph_frame env _).1).trans rfl,
      ((updateSignalGraph_frame env _).2.1).trans rfl,
      ((updateSignalGraph_frame env _).2.2.1).trans rfl,
      ((updateSignalGraph_frame env _).2.2.2.2.2).trans rfl,
      (updateSignalGraph_isSignal env _).trans rfl⟩
  · next hsig =>
    exact ⟨((updateTextString_frame env true _).2.2.2.1).trans rfl,
      ((updateTextString_frame env true _).2.2.2.2.1).trans rfl,
      ((updateTextString_frame env true _).1).trans rfl,
      ((updateTextString_frame env true _).2.1).trans rfl,
      ((updateTextString_frame env true _).2.2.1).trans rfl,
      ((updateTextString_frame env true _).2.2.2.2.2.2.2).trans rfl,
      (updateTextString_isSignal env true _).trans rfl⟩

theorem setConnection_clear_fields (env : Env) (p : Pt) (s : DisplayState)
    (h : s.activeConnection ≠ none) :
    (setConnection env none p s).visible = false ∧
    (setConnection env none p s).activeConnection = none ∧
    (setConnection env none p s).repaintInterval = none ∧
    (setConnection env none p s).hoverInterval = none ∧
    (setConnection env none p s).exitInterval = some 500 ∧
    (setConnection env none p s).mouseDelay = 0 ∧
    (setConnection env none p s).sampleQueue = s.sampleQueue ∧
    (setConnection env none p s).lastSamples = s.lastSamples := by
  unfold setConnection
  rw [if_neg (by simp [h])]
  exact ⟨rfl, rfl, rfl, rfl, rfl, rfl, rfl, rfl⟩

/-! ### Queue bound over every operation, and the reachability
invariant for C5 -/

theorem setConnection_bound (env : Env) (c : Option Conn) (p : Pt)
    (s : DisplayState) (h : ∀ q ∈ s.sampleQueue, q.length ≤ 512) :
    ∀ q ∈ (setConnection env c p s).sampleQueue, q.length ≤ 512 := by
  unfold setConnection
  split
  · exact h
  · cases c with
    | none => exact h
    | some cc =>
      dsimp only
      split
      · apply updateSignalGraph_bound
        intro q hq
        rw [List.eq_of_mem_replicate (show q ∈ List.replicate 8 [] from hq)]
        simp
      · intro q hq
        rw [(updateTextString_frame env true _).2.2.2.2.2.1] at hq
        exact h q hq

theorem timerCallback_bound (env : Env) (t : TimerID) (s : DisplayState)
    (h : ∀ q ∈ s.sampleQueue, q.length ≤ 512) :
    ∀ q ∈ (timerCallback env t s).sampleQueue, q.length ≤ 512 := by
  unfold timerCallback
  cases t with
  | RepaintTimer =>
    cases s.activeConnection with
    | none => exact h
    | some c =>
      dsimp only
      split
      · exact updateSignalGraph_bound env s h
      · intro q hq
        rw [(updateTextString_frame env false s).2.2.2.2.2.1] at hq
        exact h q hq
  | MouseHoverDelay =>
    cases s.activeConnection with
    | none => exact h
    | some c =>
      dsimp only
      split
      · exact h
      · intro q hq
        rw [show ({ updateTextString env false s with visible := true } :
            DisplayState).sampleQueue = (updateTextString env false s).sampleQueue from rfl,
          (updateTextString_frame env false s).2.2.2.2.2.1] at hq
        exact h q hq
  | MouseHoverExitDelay => exact h

theorem updateSignalData_bound (n : Nat) (out : List ℚ) (s : DisplayState)
    (h : ∀ q ∈ s.sampleQueue, q.length ≤ 512) :
    ∀ q ∈ (updateSignalData n out s).sampleQueue, q.length ≤ 512 := by
  unfold updateSignalData
  cases s.activeConnection with
  | none => exact h
  | some c =>
    dsimp only
    split
    · exact enqueueBlock_bound n out s.sampleQueue h
    · exact h

theorem reach_queue_bound (env : Env) :
    ∀ s, Reach env s → ∀ q ∈ s.sampleQueue, q.length ≤ 512 := by
  intro s hs
  induction hs with
  | init =>
    intro q hq
    rw [List.eq_of_mem_replicate (show q ∈ List.replicate 8 [] from hq)]
    simp
  | setConn c p _ ih => exact setConnection_bound _ _ _ _ ih
  | tick t _ _ ih => exact timerCallback_bound _ _ _ ih
  | push n out _ ih => exact updateSignalData_bound _ _ _ ih
  | invalidate _ ih => exact ih

/-! ### Visibility invariants for C4 -/

/-- Across every reachable state (external invalidation included): a
visible display has no exit-grace timer running, and neither does one
with the hover timer running. The exit timer only ever runs between a
deactivation (which hides and stops the hover timer) and its own
single shot. -/
theorem reach_vis_exit (env : Env) :
    ∀ s, Reach env s →
      (s.visible = true → s.exitInterval = none) ∧
      (s.hoverInterval.isSome = true → s.exitInterval = none) := by
  intro s hs
  induction hs with
  | init => exact ⟨fun _ => rfl, fun _ => rfl⟩
  | @setConn s c p _ ih =>
    cases c with
    | some cc =>
      have hf := setConnection_some_fields env cc p s
      exact ⟨fun _ => hf.2.1, fun _ => hf.2.1⟩
    | none =>
      by_cases hg : s.activeConnection = none
      · rw [setConnection_null_null env p s hg]; exact ih
      · have hf := setConnection_clear_fields env p s hg
        constructor
        · intro h; rw [hf.1] at h; cases h
        · intro h; rw [hf.2.2.2.1] at h; simp at h
  | @tick s t _ hrun ih =>
    cases t with
    | RepaintTimer =>
      cases hc : s.activeConnection with
      | some c =>
        have he : timerCallback env TimerID.RepaintTimer s =
            if s.isSignalDisplay then updateSignalGraph env s
            else updateTextString env false s := by
          unfold timerCallback; rw [hc]
        rw [he]
        by_cases hsig : s.isSignalDisplay = true
        · rw [if_pos hsig]
          have hf := updateSignalGraph_frame env s
          exact ⟨fun h => by
              rw [hf.2.2.2.2.1]; exact ih.1 (by rw [hf.1] at h; exact h),
            fun h => by
              rw [hf.2.2.2.2.1]; exact ih.2 (by rw [hf.2.2.2.1] at h; exact h)⟩
        · rw [if_neg hsig]
          have hf := updateTextString_frame env false s
          exact ⟨fun h => by
              rw [hf.2.2.2.2.1]; exact ih.1 (by rw [hf.1] at h; exact h),
            fun h => by
              rw [hf.2.2.2.2.1]; exact ih.2 (by rw [hf.2.2.2.1] at h; exact h)⟩
      | none =>
        have he : timerCallback env TimerID.RepaintTimer s = hideDisplay s := by
          unfold timerCallback; rw [hc]
        rw [he]
        constructor
        · intro h; rw [hideDisplay_visible] at h; cases h
        · intro h
          rw [hideDisplay_hoverInterval] at h
          rw [hideDisplay_exitInterval]
          exact ih.2 h
    | MouseHoverDelay =>
      cases hc : s.activeConnection with
      | some c =>
        have hex : s.exitInterval = none := ih.2 hrun
        have he : timerCallback env TimerID.MouseHoverDelay s =
            { (if s.isSignalDisplay then s else updateTextString env false s)
                with visible := true } := by
          unfold timerCallback; rw [hc]
        rw [he]
        by_cases hsig : s.isSignalDisplay = true
        · rw [if_pos hsig]
          exact ⟨fun _ => hex, fun _ => hex⟩
        · rw [if_neg hsig]
          have hf := updateTextString_frame env false s
          constructor
          · intro _
            show (updateTextString env false s).exitInterval = none
            rw [hf.2.2.2.2.1]; exact hex
          · intro _
            show (updateTextString env false s).exitInterval = none
            rw [hf.2.2.2.2.1]; exact hex
      | none =>
        have he : timerCallback env TimerID.MouseHoverDelay s = hideDisplay s := by
          unfold timerCallback; rw [hc]
        rw [he]
        constructor
        · intro h; rw [hideDisplay_visible] at h; cases h
        · intro h
          rw [hideDisplay_hoverInterval] at h
          rw [hideDisplay_exitInterval]
          exact ih.2 h
    | MouseHoverExitDelay => exact ⟨fun _ => rfl, fun _ => rfl⟩
  | @push s n out _ ih =>
    have hf := updateSignalData_frame n out s
    constructor
    · intro h; rw [hf.2.2.2.2.1]; exact ih.1 (by rw [hf.1] at h; exact h)
    · intro h; rw [hf.2.2.2.2.1]; exact ih.2 (by rw [hf.2.2.2.1] at h; exact h)
  | @invalidate s _ ih => exact ih

/-- With no (or an invalidated) connection, whichever running timer
fires next leaves the display invisible: the repaint and hover
callbacks call `hideDisplay`, and the exit callback can only be
running when the display is already hidden. -/
theorem conn_none_tick_hides (env : Env) (s : DisplayState)
    (hre : Reach env s) (hc : s.activeConnection = none) :
    ∀ t, timerRunning t s = true → (timerCallback env t s).visible = false := by
  intro t hrun
  cases t with
  | RepaintTimer =>
    have he : timerCallback env TimerID.RepaintTimer s = hideDisplay s := by
      unfold timerCallback; rw [hc]
    rw [he, hideDisplay_visible]
  | MouseHoverDelay =>
    have he : timerCallback env TimerID.MouseHoverDelay s = hideDisplay s := by
      unfold timerCallback; rw [hc]
    rw [he, hideDisplay_visible]
  | MouseHoverExitDelay =>
    show s.visible = false
    by_cases hv : s.visible = true
    · have hex := (reach_vis_exit env s hre).1 hv
      have hiso : s.exitInterval.isSome = true := hrun
      rw [hex] at hiso
      cases hiso
    · simp only [Bool.not_eq_true] at hv
      exact hv

/-- Without external invalidation, "no active connection" implies "not
visible" in every reachable state: the reference is only ever cleared
through `hideDisplay` (directly or via `setConnection` with null),
which hides first. -/
theorem reachUI_conn_none_invisible (env : Env) :
    ∀ s, ReachUI env s → s.activeConnection = none → s.visible = false := by
  intro s hs
  induction hs with
  | init => intro _; rfl
  | @setConn s c p _ ih =>
    cases c with
    | some cc =>
      intro hc
      rw [(setConnection_some_fields env cc p s).2.2.2.1] at hc
      cases hc
    | none =>
      by_cases hg : s.activeConnection = none
      · rw [setConnection_null_null env p s hg]; exact ih
      · intro _; exact (setConnection_clear_fields env p s hg).1
  | @tick s t _ hrun ih =>
    cases t with
    | RepaintTimer =>
      cases hc : s.activeConnection with
      | some c =>
        intro hcn
        have he : timerCallback env TimerID.RepaintTimer s =
            if s.isSignalDisplay then updateSignalGraph env s
            else updateTextString env false s := by
          unfold timerCallback; rw [hc]
        rw [he] at hcn
        by_cases hsig : s.isSignalDisplay = true
        · rw [if_pos hsig, (updateSignalGraph_frame env s).2.1, hc] at hcn
          cases hcn
        · rw [if_neg hsig, (updateTextString_frame env false s).2.1, hc] at hcn
          cases hcn
      | none =>
        intro _
        have he : timerCallback env TimerID.RepaintTimer s = hideDisplay s := by
          unfold timerCallback; rw [hc]
        rw [he, hideDisplay_visible]
    | MouseHoverDelay =>
      cases hc : s.activeConnection with
      | some c =>
        intro hcn
        have he : timerCallback env TimerID.MouseHoverDelay s =
            { (if s.isSignalDisplay then s else updateTextString env false s)
                with visible := true } := by
          unfold timerCallback; rw [hc]
        rw [he] at hcn
        by_cases hsig : s.isSignalDisplay = true
        · rw [if_pos hsig] at hcn
          have h2 : s.activeConnection = none := hcn
          rw [hc] at h2; cases h2
        · rw [if_neg hsig] at hcn
          have h2 : (updateTextString env false s).activeConnection = none := hcn
          rw [(updateTextString_frame env false s).2.1, hc] at h2
          cases h2
      | none =>
        intro _
        have he : timerCallback env TimerID.MouseHoverDelay s = hideDisplay s := by
          unfold timerCallback; rw [hc]
        rw [he, hideDisplay_visible]
    | MouseHoverExitDelay =>
      intro hcn
      have h2 : s.activeConnection = none := hcn
      exact ih h2
  | @push s n out _ ih =>
    intro hcn
    have hf := updateSignalData_frame n out s
    rw [hf.2.1] at hcn
    rw [hf.1]
    exact ih hcn

/-! ### Round-trip lemmas for C6 -/

/-- Writing a list of samples into `arr` at consecutive positions from
`i` on: this is what the drain loop does to the display array when the
queue empties before the loop bound. -/
def writeList (arr : List ℚ) (i : Nat) : List ℚ → List ℚ
  | [] => arr
  | x :: rest => writeList (arr.set i x) (i + 1) rest

theorem drainLoop_eq_writeList (xs : List ℚ) :
    ∀ (fuel i : Nat) (arr : List ℚ), xs.length ≤ fuel →
      drainLoop fuel i xs arr = ([], writeList arr i xs) := by
  induction xs with
  | nil =>
    intro fuel i arr _
    cases fuel <;> rfl
  | cons x rest ih =>
    intro fuel i arr hfuel
    cases fuel with
    | zero => simp at hfuel
    | succ f =>
      show drainLoop f (i + 1) rest (setAt arr i x) = _
      exact ih f (i + 1) (arr.set i x) (Nat.le_of_succ_le_succ hfuel)

theorem writeList_cons_shift (xs : List ℚ) :
    ∀ (i : Nat) (y : ℚ) (arr : List ℚ),
      writeList (y :: arr) (i + 1) xs = y :: writeList arr i xs := by
  induction xs with
  | nil => intro i y arr; rfl
  | cons z rest ih =>
    intro i y arr
    show writeList ((y :: arr).set (i + 1) z) (i + 2) rest = _
    rw [show (y :: arr).set (i + 1) z = y :: arr.set i z from rfl]
    exact ih (i + 1) y (arr.set i z)

theorem writeList_replicate (xs : List ℚ) :
    ∀ (m : Nat), xs.length ≤ m →
      writeList (List.replicate m (0 : ℚ)) 0 xs =
        xs ++ List.replicate (m - xs.length) (0 : ℚ) := by
  induction xs with
  | nil => intro m _; simp [writeList]
  | cons x rest ih =>
    intro m hm
    cases m with
    | zero => simp at hm
    | succ k =>
      show writeList ((List.replicate (k + 1) (0:ℚ)).set 0 x) 1 rest = _
      rw [show (List.replicate (k + 1) (0:ℚ)).set 0 x =
          x :: List.replicate k (0:ℚ) by simp [List.replicate_succ]]
      rw [writeList_cons_shift rest 0 x (List.replicate k 0)]
      rw [ih k (Nat.le_of_succ_le_succ hm)]
      simp [List.replicate, Nat.succ_sub_succ]

theorem enqueue_list_append (xs : List ℚ) :
    ∀ (q : List ℚ), q.length + xs.length ≤ 512 →
      xs.foldl tryEnqueue q = q ++ xs := by
  induction xs with
  | nil => intro q _; simp
  | cons x rest ih =>
    intro q hlen
    have hq : q.length < queueCapacity := by
      unfold queueCapacity
      simp only [List.length_cons] at hlen
      omega
    show rest.foldl tryEnqueue (tryEnqueue q x) = _
    rw [show tryEnqueue q x = q ++ [x] from if_pos hq]
    rw [ih (q ++ [x]) (by simp at hlen ⊢; omega)]
    simp

/-! ### Layout spec functions and the elision lemma for C7 -/

/-- The `i`-th laid-out token text: the token, with a trailing comma
unless it is the first or last token. -/
def tokenItem (toks : List String) (i : Nat) : String :=
  toks.getD i "" ++ (if i = 0 ∨ i = toks.length - 1 then "" else ",")

/-- The measuring font in force when the loop reaches token `i`. -/
def fontAt (hm : Bool) (i : Nat) : FontKind :=
  if i = 0 then initialFont hm
  else if hm then FontKind.defaultRaw else FontKind.default14

/-- The font style in force when the loop reaches token `i`. -/
def styleAt (hm : Bool) (i : Nat) : FontStyle :=
  if hm ∧ i = 0 then FontStyle.semibold else FontStyle.regular

/-- The measured width of token `i`. -/
def widthAt (env : Env) (hm : Bool) (toks : List String) (i : Nat) : Int :=
  env.stringWidth (fontAt hm i) (tokenItem toks i)

/-- The item the loop appends for token `i` when it fits. -/
def itemAt (env : Env) (hm : Bool) (toks : List String) (i : Nat) :
    TextStringWithMetrics :=
  ⟨tokenItem toks i, styleAt hm i, widthAt env hm toks i⟩

/-- `totalStringWidth` when the loop reaches token `i` (the initial
margin `(8 * 2) + 4`, plus each earlier token's width plus 4). -/
def totalBefore (env : Env) (hm : Bool) (toks : List String) : Nat → Int
  | 0 => (8 * 2) + 4
  | i + 1 => totalBefore env hm toks i + widthAt env hm toks i + 4

/-- Token `i` overflows: laying it out would push `totalStringWidth`
past half the editor width. -/
def overflowAt (env : Env) (hm : Bool) (toks : List String) (halfW : Int)
    (i : Nat) : Prop :=
  totalBefore env hm toks i + widthAt env hm toks i > halfW

instance (env : Env) (hm : Bool) (toks : List String) (halfW : Int) (i : Nat) :
    Decidable (overflowAt env hm toks halfW i) := by
  unfold overflowAt
  infer_instance

theorem styleAt_zero (hm : Bool) : styleAt hm 0 = initialStyle hm := by
  cases hm <;> rfl

theorem fontAt_zero (hm : Bool) : fontAt hm 0 = initialFont hm := rfl

theorem styleAt_pos (hm : Bool) (i : Nat) (h : i ≠ 0) :
    styleAt hm i = FontStyle.regular := by
  unfold styleAt
  rw [if_neg]
  intro hc
  exact h hc.2

theorem fontAt_next (hm : Bool) (i : Nat) (h : ¬(hm = true ∧ i = 0)) :
    fontAt hm i = fontAt hm (i + 1) := by
  unfold fontAt initialFont
  cases hm with
  | false => by_cases hi : i = 0 <;> simp [hi]
  | true =>
    have hi : i ≠ 0 := fun hz => h ⟨rfl, hz⟩
    simp [hi]

theorem getD_str_eq_of_lt (toks : List String) (i : Nat) (h : i < toks.length) :
    toks.getD i "" = toks[i] := by
  rw [List.getD_eq_getElem?_getD, List.getElem?_eq_getElem h, Option.getD_some]

/-- The elision lemma: when token `i₀` is the first to overflow, the
layout loop entered at any `i ≤ i₀` (with no earlier overflow) lays
out tokens `i, …, i₀ - 1` and then replaces the rest with the single
count-and-ellipsis marker. -/
theorem layoutRun_elide (env : Env) (halfW : Int) (hm : Bool)
    (toks : List String) (i₀ : Nat) (h₀ : i₀ < toks.length)
    (hov : overflowAt env hm toks halfW i₀)
    (hmin : ∀ j, j < i₀ → ¬ overflowAt env hm toks halfW j) :
    ∀ (k i : Nat), i + k = i₀ →
      layoutRun env halfW toks.length (toks.drop i) i
          (totalBefore env hm toks i) (styleAt hm i) (fontAt hm i) =
        ((List.range' i k).map (itemAt env hm toks) ++
            [elideItem env (toks.length - i₀)],
          totalBefore env hm toks i₀ +
            (elideItem env (toks.length - i₀)).width + 4) := by
  intro k
  induction k with
  | zero =>
    intro i hi
    have hii : i = i₀ := by omega
    subst hii
    rw [List.drop_eq_getElem_cons h₀]
    simp only [layoutRun]
    have hitem : (toks[i] ++
        (if i = 0 ∨ i = toks.length - 1 then "" else ",")) = tokenItem toks i := by
      unfold tokenItem
      rw [getD_str_eq_of_lt toks i h₀]
    rw [hitem]
    have hov' : totalBefore env hm toks i +
        env.stringWidth (fontAt hm i) (tokenItem toks i) > halfW := hov
    rw [if_pos hov']
    simp
  | succ k ih =>
    intro i hi
    have hilt : i < i₀ := by omega
    have hlen : i < toks.length := Nat.lt_trans hilt h₀
    rw [List.drop_eq_getElem_cons hlen]
    simp only [layoutRun]
    have hitem : (toks[i] ++
        (if i = 0 ∨ i = toks.length - 1 then "" else ",")) = tokenItem toks i := by
      unfold tokenItem
      rw [getD_str_eq_of_lt toks i hlen]
    rw [hitem]
    have hno : ¬ (totalBefore env hm toks i +
        env.stringWidth (fontAt hm i) (tokenItem toks i) > halfW) := hmin i hilt
    rw [if_neg hno]
    have hnext : (i + 1) + k = i₀ := by omega
    have htot : totalBefore env hm toks i +
        env.stringWidth (fontAt hm i) (tokenItem toks i) + 4 =
        totalBefore env hm toks (i + 1) := rfl
    by_cases hsb : hm = true ∧ i = 0
    · have hsty : styleAt hm i = FontStyle.semibold := by
        unfold styleAt; rw [if_pos hsb]
      have hne : styleAt hm i ≠ FontStyle.regular := by rw [hsty]; intro hc; cases hc
      rw [if_pos hne, htot]
      have hsty1 : FontStyle.regular = styleAt hm (i + 1) :=
        (styleAt_pos hm (i + 1) (Nat.succ_ne_zero i)).symm
      have hfnt1 : FontKind.defaultRaw = fontAt hm (i + 1) := by
        unfold fontAt
        rw [if_neg (Nat.succ_ne_zero i), if_pos hsb.1]
      rw [hsty1, hfnt1, ih (i + 1) hnext]
      rw [List.range'_succ]
      simp [itemAt, widthAt, hsty]
    · have hsty : styleAt hm i = FontStyle.regular := by
        unfold styleAt; rw [if_neg hsb]
      have hne : ¬ (styleAt hm i ≠ FontStyle.regular) := fun hc => hc hsty
      rw [if_neg hne, htot]
      have hseq : styleAt hm (i + 1) = styleAt hm i := by
        rw [hsty, styleAt_pos hm (i + 1) (Nat.succ_ne_zero i)]
      have IH := ih (i + 1) hnext
      rw [hseq, ← fontAt_next hm i hsb] at IH
      rw [IH, List.range'_succ]
      simp [itemAt, widthAt, hsty]

/-- The width of the text computed by `updateTextString` (its final
`totalStringWidth`), as a function of the environment and the
connection's message. -/
def textTotalWidth (env : Env) (c : Conn) : Int :=
  (layoutTokens env (Int.tdiv env.parentWidth 2)
    (effectiveMessage c).1 (effectiveMessage c).2).2

/-! ### Geometry containment for C10 -/

/-- `a` lies within `b`. -/
def rectWithin (a b : Rect) : Prop :=
  b.x ≤ a.x ∧ b.y ≤ a.y ∧ a.x + a.w ≤ b.x + b.w ∧ a.y + a.h ≤ b.y + b.h

instance (a b : Rect) : Decidable (rectWithin a b) := by
  unfold rectWithin
  infer_instance

theorem constrainedWithin_within (r area : Rect) :
    rectWithin (constrainedWithin r area) area := by
  unfold rectWithin constrainedWithin jlimit
  dsimp only
  refine ⟨?_, ?_, ?_, ?_⟩ <;> split_ifs <;> omega

/-! ### Paint helper lemmas for C2 -/

theorem renderChannelsAux_congr (s : DisplayState) (r1 r2 : Nat → Nat)
    (th : ℚ) :
    ∀ (fuel ch : Nat) (internal : RectQ),
      (∀ k, ch ≤ k → k < ch + fuel → r1 k % 512 = r2 k % 512) →
      renderChannelsAux s r1 th fuel ch internal =
        renderChannelsAux s r2 th fuel ch internal := by
  intro fuel
  induction fuel with
  | zero => intro ch internal _; rfl
  | succ n ih =>
    intro ch internal h
    show renderChannel s (r1 ch) ch _ :: _ = renderChannel s (r2 ch) ch _ :: _
    have hch : r1 ch % 512 = r2 ch % 512 := h ch (Nat.le_refl ch) (by omega)
    congr 1
    · unfold renderChannel
      rw [hch]
    · exact ih (ch + 1) _ (fun k hk1 hk2 => h k (by omega) (by omega))

theorem renderChannelsAux_readout (s : DisplayState) (r : Nat → Nat)
    (th : ℚ) :
    ∀ (fuel ch k : Nat) (internal : RectQ), k < fuel →
      ((renderChannelsAux s r th fuel ch internal).getD k
          ChannelRender.empty).readout =
        sampleAt s (ch + k) (r (ch + k) % 512) := by
  intro fuel
  induction fuel with
  | zero => intro ch k internal hk; exact absurd hk (Nat.not_lt_zero k)
  | succ n ih =>
    intro ch k internal hk
    cases k with
    | zero =>
      show (renderChannel s (r ch) ch _).readout = _
      simp [renderChannel]
    | succ m =>
      show ((renderChannelsAux s r th n (ch + 1) _).getD m
          ChannelRender.empty).readout = _
      rw [ih (ch + 1) m _ (Nat.lt_of_succ_lt_succ hk)]
      have hc : ch + 1 + m = ch + (m + 1) := by omega
      rw [hc]

/-! ### Empty-drain lemmas for C3 -/

theorem getD_empty (qs : List (List ℚ)) (h : ∀ q ∈ qs, q = []) (ch : Nat) :
    qs.getD ch [] = [] := by
  by_cases hch : ch < qs.length
  · rw [List.getD_eq_getElem?_getD, List.getElem?_eq_getElem hch, Option.getD_some]
    exact h _ (List.getElem_mem hch)
  · exact List.getD_eq_default _ _ (Nat.le_of_not_lt hch)

theorem set_getD_self (l : List (List ℚ)) :
    ∀ i : Nat, l.set i (l.getD i []) = l := by
  induction l with
  | nil => intro i; rfl
  | cons x rest ih =>
    intro i
    cases i with
    | zero => rfl
    | succ n =>
      show x :: rest.set n (rest.getD n []) = x :: rest
      rw [ih n]

theorem drainAllAux_empty (fuel : Nat) :
    ∀ (ch : Nat) (qs arrs : List (List ℚ)), (∀ q ∈ qs, q = []) →
      drainAllAux fuel ch qs arrs = (qs, arrs) := by
  induction fuel with
  | zero => intro ch qs arrs _; rfl
  | succ n ih =>
    intro ch qs arrs h
    show drainAllAux n (ch + 1)
        (qs.set ch (drainChannel (qs.getD ch []) (arrs.getD ch [])).1)
        (arrs.set ch (drainChannel (qs.getD ch []) (arrs.getD ch [])).2) = _
    rw [getD_empty qs h ch]
    rw [show drainChannel [] (arrs.getD ch []) = ([], arrs.getD ch []) from rfl]
    rw [show (([], arrs.getD ch []) : List ℚ × List ℚ).1 = qs.getD ch [] from
      (getD_empty qs h ch).symm]
    rw [set_getD_self qs ch]
    rw [show (([], arrs.getD ch []) : List ℚ × List ℚ).2 = arrs.getD ch [] from rfl]
    rw [set_getD_self arrs ch]
    exact ih (ch + 1) qs arrs h

theorem updateSignalGraph_cleared (env : Env) (s : DisplayState)
    (hq : s.sampleQueue = List.replicate 8 [])
    (ha : s.lastSamples = List.replicate 8 (List.replicate 512 (0 : ℚ))) :
    (updateSignalGraph env s).sampleQueue = List.replicate 8 [] ∧
    (updateSignalGraph env s).lastSamples =
      List.replicate 8 (List.replicate 512 (0 : ℚ)) := by
  unfold updateSignalGraph
  cases s.activeConnection with
  | none => exact ⟨hq, ha⟩
  | some c =>
    dsimp only
    unfold drainAll
    rw [hq, ha,
      drainAllAux_empty _ _ _ _ (fun q hmem => List.eq_of_mem_replicate hmem)]
    exact ⟨rfl, rfl⟩

/-! ### Concrete fixtures for witnesses and counterexamples -/

/-- A concrete environment: a 400×300 editor at the screen origin, with
every string one pixel wide per character. -/
def env0 : Env :=
  { parentWidth := 400
    parentHeight := 300
    parentScreenX := 0
    parentScreenY := 0
    stringWidth := fun _ str => (str.length : Int) }

/-- A concrete message (non-signal) connection. -/
def msgConn : Conn := ⟨false, ["5", "10", "15"]⟩

/-- A concrete signal connection. -/
def sigConn : Conn := ⟨true, []⟩

/-- A concrete anchor position. -/
def p0 : Pt := ⟨100, 100⟩

/-- A state obtained by activating the signal connection and then
pushing one 64-sample block on channel 0 (each sample is `1`). -/
def pushedState : DisplayState :=
  updateSignalData 1 (List.replicate 64 (1 : ℚ))
    (setConnection env0 (some sigConn) p0 initState)

/-- `pushedState` is reachable. -/
theorem pushedState_reach : Reach env0 pushedState :=
  Reach.push 1 (List.replicate 64 (1 : ℚ))
    (Reach.setConn (some sigConn) p0 Reach.init)

/-- A reachable state whose connection has just been destroyed
externally while the repaint timer is still running. -/
def invState : DisplayState :=
  invalidateConn (setConnection env0 (some sigConn) p0 initState)

theorem invState_reach : Reach env0 invState :=
  Reach.invalidate (Reach.setConn (some sigConn) p0 Reach.init)

/-- A state with the message connection active (after hover entry). -/
def msgActiveState : DisplayState :=
  setConnection env0 (some msgConn) p0 initState

/-- The state right after deactivating (`setConnection(nullptr)`) from
`msgActiveState`. -/
def deacState : DisplayState := setConnection env0 none p0 msgActiveState

/-- `deacState` after its exit-grace timer fired. -/
def afterExitState : DisplayState :=
  timerCallback env0 TimerID.MouseHoverExitDelay deacState

/-! ### The claims -/

/-- C1: for every `setConnection` call with a non-null connection, the
repaint timer is started with interval `1000 / 10` ms (= 100 ms, 10 Hz)
when the connection carries a signal, and `1000 / 60` ms (= 16 ms, the
integer-millisecond request for 60 Hz) when it carries discrete
messages. -/
theorem C1_repaint_rate (env : Env) (c : Conn) (p : Pt) (s : DisplayState) :
    (c.isSignal = true →
      (setConnection env (some c) p s).repaintInterval = some (1000 / 10)) ∧
    (c.isSignal = false →
      (setConnection env (some c) p s).repaintInterval = some (1000 / 60)) := by
  have hf := (setConnection_some_fields env c p s).2.2.2.2.1
  constructor
  · intro h; rw [hf]; simp [h]
  · intro h; rw [hf]; simp [h]

theorem C1_witness :
    (sigConn.isSignal = true ∧
      (setConnection env0 (some sigConn) p0 initState).repaintInterval =
        some (1000 / 10)) ∧
    (msgConn.isSignal = false ∧
      (setConnection env0 (some msgConn) p0 initState).repaintInterval =
        some (1000 / 60)) :=
  ⟨⟨rfl, (C1_repaint_rate env0 sigConn p0 initState).1 rfl⟩,
   ⟨rfl, (C1_repaint_rate env0 msgConn p0 initState).2 rfl⟩⟩

/-- C9: `setConnection` with a null connection while the active
reference is already null (or invalidated) is a no-op: the state — all
display fields and all three timers — is unchanged. -/
theorem C9_null_null_noop (env : Env) (p : Pt) (s : DisplayState)
    (h : s.activeConnection = none) :
    setConnection env none p s = s :=
  setConnection_null_null env p s h

theorem C9_witness :
    initState.activeConnection = none ∧
      setConnection env0 none p0 initState = initState :=
  ⟨rfl, C9_null_null_noop env0 p0 initState rfl⟩

/-- C5: in every reachable state — whatever the interleaving of
activations, producer pushes (`updateSignalData`) and timer ticks —
every per-channel sample queue holds at most 512 samples; and a push
against a full queue is dropped, leaving the queue unchanged. -/
theorem C5_queue_capacity (env : Env) (s : DisplayState) (h : Reach env s) :
    (∀ q ∈ s.sampleQueue, q.length ≤ 512) ∧
    (∀ (q : List ℚ) (x : ℚ), q.length = 512 → tryEnqueue q x = q) :=
  ⟨reach_queue_bound env s h, fun q x hq => tryEnqueue_full q x hq⟩

theorem C5_witness :
    (∀ q ∈ pushedState.sampleQueue, q.length ≤ 512) ∧
      tryEnqueue (List.replicate 512 (0 : ℚ)) 7 = List.replicate 512 (0 : ℚ) :=
  ⟨(C5_queue_capacity env0 pushedState pushedState_reach).1,
   (C5_queue_capacity env0 pushedState pushedState_reach).2
     (List.replicate 512 (0 : ℚ)) 7 (by rw [List.length_replicate])⟩

/-- C4: (a) in every reachable state (external invalidation of the
reference included) with no active connection, whichever timer fires
next leaves the overlay invisible — so visibility is false no later
than the next timer tick after the reference is cleared or becomes
invalid; (b) when the reference is only ever cleared through the
component's own API (no external invalidation), "no active connection"
implies "not visible" in every reachable state. -/
theorem C4_cleared_hides (env : Env) :
    (∀ s, Reach env s → s.activeConnection = none →
      ∀ t, timerRunning t s = true → (timerCallback env t s).visible = false) ∧
    (∀ s, ReachUI env s → s.activeConnection = none → s.visible = false) :=
  ⟨fun s hs hc => conn_none_tick_hides env s hs hc,
   fun s hs hc => reachUI_conn_none_invisible env s hs hc⟩

theorem C4_witness :
    (invState.activeConnection = none ∧
      timerRunning TimerID.RepaintTimer invState = true ∧
      (timerCallback env0 TimerID.RepaintTimer invState).visible = false) ∧
    (initState.activeConnection = none ∧ initState.visible = false) :=
  ⟨⟨rfl, rfl,
    (C4_cleared_hides env0).1 invState invState_reach rfl
      TimerID.RepaintTimer rfl⟩,
   ⟨rfl, (C4_cleared_hides env0).2 initState ReachUI.init rfl⟩⟩

/-- C6: per channel, pushing `N ≤ 512` samples through `try_enqueue`
into an empty queue and then running one drain pass
(`updateSignalGraph`'s per-channel loop, `drainChannel`) over a cleared
display array empties the queue and leaves the array holding exactly
those `N = min(N, 512)` samples, in push order, followed by the
remaining zeros. (`updateSignalData` performs exactly these
`try_enqueue` calls in sample order on each channel's queue, and
`updateSignalGraph` performs exactly this drain on each channel.) -/
theorem C6_roundtrip (xs : List ℚ) (h : xs.length ≤ 512) :
    drainChannel (xs.foldl tryEnqueue []) (List.replicate 512 (0 : ℚ)) =
      ([], xs ++ List.replicate (512 - xs.length) (0 : ℚ)) := by
  rw [enqueue_list_append xs [] (by simpa using h)]
  rw [show ([] : List ℚ) ++ xs = xs from by simp]
  unfold drainChannel
  rw [drainLoop_eq_writeList xs 512 0 _ h]
  rw [writeList_replicate xs 512 h]

theorem C6_witness :
    ([(1 : ℚ), 2, 3].length ≤ 512) ∧
      drainChannel ([(1 : ℚ), 2, 3].foldl tryEnqueue [])
          (List.replicate 512 (0 : ℚ)) =
        ([], [(1 : ℚ), 2, 3] ++ List.replicate 509 (0 : ℚ)) :=
  ⟨by simp, C6_roundtrip [1, 2, 3] (by simp)⟩

/-- C7: for every token list and measuring environment, if some token
overflows — its width would push the running total past half the
editor width — then, with `i₀` the first such token, the laid-out
sequence is exactly the items for tokens `0, …, i₀ - 1` followed by the
single count-and-ellipsis marker `"(k)..."` with
`k = toks.length - i₀`, the number of remaining tokens: the rendered
sequence ends with the marker instead of overflowing. -/
theorem C7_elision (env : Env) (halfW : Int) (hm : Bool)
    (toks : List String) (i₀ : Nat) (h₀ : i₀ < toks.length)
    (hov : overflowAt env hm toks halfW i₀)
    (hmin : ∀ j, j < i₀ → ¬ overflowAt env hm toks halfW j) :
    (layoutTokens env halfW hm toks).1 =
      (List.range i₀).map (itemAt env hm toks) ++
        [elideItem env (toks.length - i₀)] := by
  unfold layoutTokens
  have h := layoutRun_elide env halfW hm toks i₀ h₀ hov hmin i₀ 0 (by omega)
  rw [List.drop_zero] at h
  rw [show totalBefore env hm toks 0 = (8 * 2) + 4 from rfl] at h
  rw [styleAt_zero, fontAt_zero] at h
  rw [h, List.range_eq_range']

theorem C7_witness :
    ((1 : Nat) < (["aaaa", "bbbb", "cccc", "dddd"] : List String).length) ∧
    overflowAt env0 true ["aaaa", "bbbb", "cccc", "dddd"] 30 1 ∧
    (∀ j, j < 1 → ¬ overflowAt env0 true ["aaaa", "bbbb", "cccc", "dddd"] 30 j) ∧
    (layoutTokens env0 30 true ["aaaa", "bbbb", "cccc", "dddd"]).1 =
      (List.range 1).map (itemAt env0 true ["aaaa", "bbbb", "cccc", "dddd"]) ++
        [elideItem env0 3] :=
  ⟨by decide, by decide, by decide,
   C7_elision env0 30 true ["aaaa", "bbbb", "cccc", "dddd"] 1
     (by decide) (by decide) (by decide)⟩

set_option maxRecDepth 8000 in
/-- C3 counterexample: the claim says every `setConnection` call that
adopts a different reference — including to null — clears the sample
queues and display arrays. But deactivating (`setConnection(nullptr)`)
goes through `hideDisplay`, which touches neither: starting from a
reachable state whose channel-0 queue holds 64 samples, the queue is
still non-empty after the reference changes from the signal connection
to null. -/
theorem C3_counterexample :
    pushedState.activeConnection ≠ none ∧
    (setConnection env0 none p0 pushedState).sampleQueue.getD 0 [] ≠ [] := by
  decide

/-- C3 amended: the per-channel queues and display arrays are cleared
exactly when a live signal-bearing connection is adopted
(`clearSignalDisplayBuffer` runs only in that branch, and the
subsequent drain of the now-empty queues leaves everything zero);
adopting a message connection, or clearing the reference, leaves both
untouched. -/
theorem C3_clear_on_signal_adopt (env : Env) (c : Conn) (p : Pt)
    (s : DisplayState) :
    (c.isSignal = true →
      (setConnection env (some c) p s).sampleQueue = List.replicate 8 [] ∧
      (setConnection env (some c) p s).lastSamples =
        List.replicate 8 (List.replicate 512 (0 : ℚ))) ∧
    (c.isSignal = false →
      (setConnection env (some c) p s).sampleQueue = s.sampleQueue ∧
      (setConnection env (some c) p s).lastSamples = s.lastSamples) ∧
    (s.activeConnection ≠ none →
      (setConnection env none p s).sampleQueue = s.sampleQueue ∧
      (setConnection env none p s).lastSamples = s.lastSamples) := by
  refine ⟨?_, ?_, ?_⟩
  · intro hsig
    unfold setConnection
    rw [if_neg (by simp)]
    dsimp only
    rw [if_pos hsig]
    exact updateSignalGraph_cleared env _ rfl rfl
  · intro hsig
    unfold setConnection
    rw [if_neg (by simp)]
    dsimp only
    rw [if_neg (by simp [hsig])]
    exact ⟨((updateTextString_frame env true _).2.2.2.2.2.1).trans rfl,
           ((updateTextString_frame env true _).2.2.2.2.2.2.1).trans rfl⟩
  · intro h
    exact ⟨(setConnection_clear_fields env p s h).2.2.2.2.2.2.1,
           (setConnection_clear_fields env p s h).2.2.2.2.2.2.2⟩

theorem C3_witness :
    (sigConn.isSignal = true ∧
      (setConnection env0 (some sigConn) p0 pushedState).sampleQueue =
        List.replicate 8 [] ∧
      (setConnection env0 (some sigConn) p0 pushedState).lastSamples =
        List.replicate 8 (List.replicate 512 (0 : ℚ))) ∧
    (msgConn.isSignal = false ∧
      (setConnection env0 (some msgConn) p0 pushedState).sampleQueue =
        pushedState.sampleQueue) ∧
    (pushedState.activeConnection ≠ none ∧
      (setConnection env0 none p0 pushedState).lastSamples =
        pushedState.lastSamples) :=
  ⟨⟨rfl, (C3_clear_on_signal_adopt env0 sigConn p0 pushedState).1 rfl⟩,
   ⟨rfl, ((C3_clear_on_signal_adopt env0 msgConn p0 pushedState).2.1 rfl).1⟩,
   ⟨by decide,
    ((C3_clear_on_signal_adopt env0 msgConn p0 pushedState).2.2 (by decide)).2⟩⟩

/-- C8 counterexample: the claim says that *after* the 500 ms
exit-grace timer fires, subsequent hover activations get zero hover
delay. The code does the opposite: `setConnection(nullptr)` zeroes
`mouseDelay` immediately and the exit timer's callback *restores* it to
500. Concretely: deactivate, let the exit timer fire, reactivate — the
hover timer starts with the 500 ms default, not zero. -/
theorem C8_counterexample :
    (setConnection env0 (some msgConn) p0 afterExitState).hoverInterval =
        some 500 ∧
    (setConnection env0 (some msgConn) p0 afterExitState).hoverInterval ≠
        some 0 := by
  decide

/-- C8 amended: every deactivation (null reference while a connection
is active) stops the repaint timer, clears the reference, hides the
overlay, arms the 500 ms exit-grace timer and zeroes the hover delay;
hover activations *before* the exit timer fires get zero delay, and
when it fires the hover delay resets to the 500 ms default (so later
activations again wait 500 ms). -/
theorem C8_deactivation (env : Env) (p : Pt) (s : DisplayState)
    (h : s.activeConnection ≠ none) :
    (setConnection env none p s).repaintInterval = none ∧
    (setConnection env none p s).activeConnection = none ∧
    (setConnection env none p s).visible = false ∧
    (setConnection env none p s).exitInterval = some 500 ∧
    (setConnection env none p s).mouseDelay = 0 ∧
    (∀ (c : Conn) (p2 : Pt),
      (setConnection env (some c) p2 (setConnection env none p s)).hoverInterval =
        some 0) ∧
    (timerCallback env TimerID.MouseHoverExitDelay
        (setConnection env none p s)).mouseDelay = 500 ∧
    (∀ (c : Conn) (p2 : Pt),
      (setConnection env (some c) p2
          (timerCallback env TimerID.MouseHoverExitDelay
            (setConnection env none p s))).hoverInterval = some 500) := by
  have hf := setConnection_clear_fields env p s h
  refine ⟨hf.2.2.1, hf.2.1, hf.1, hf.2.2.2.2.1, hf.2.2.2.2.2.1, ?_, rfl, ?_⟩
  · intro c p2
    rw [(setConnection_some_fields env c p2 _).1, hf.2.2.2.2.2.1]
  · intro c p2
    rw [(setConnection_some_fields env c p2 _).1]
    rfl

theorem C8_witness :
    msgActiveState.activeConnection ≠ none ∧
    deacState.repaintInterval = none ∧
    deacState.visible = false ∧
    deacState.exitInterval = some 500 ∧
    deacState.mouseDelay = 0 ∧
    (setConnection env0 (some msgConn) p0 deacState).hoverInterval = some 0 ∧
    afterExitState.mouseDelay = 500 ∧
    (setConnection env0 (some msgConn) p0 afterExitState).hoverInterval =
      some 500 :=
  have h := C8_deactivation env0 p0 msgActiveState (by decide)
  ⟨by decide, h.1, h.2.2.1, h.2.2.2.1, h.2.2.2.2.1,
   h.2.2.2.2.2.1 msgConn p0, h.2.2.2.2.2.2.1, h.2.2.2.2.2.2.2 msgConn p0⟩

/-- A display state for the C2 counterexample: one signal channel whose
buffered samples are `0` at index 0 and `1` at index 1. -/
def paintCexState : DisplayState :=
  { initState with
    isSignalDisplay := true
    lastNumChannels := 1
    lastSamples := ((List.replicate 512 (0 : ℚ)).set 1 1) ::
      List.replicate 7 (List.replicate 512 (0 : ℚ)) }

/-- C2 counterexample: `paint` is not a pure function of the display
state. The per-channel numeric readout draws
`lastSamples[ch][rand() % 512]`, and `rand()` reads the C library's
global PRNG, which is not part of the display state: two invocations of
`paint` on the *identical* display state, whose `rand()` calls return
`0` and `1` respectively, emit different output (readout `0` versus
`1`). -/
theorem C2_counterexample :
    paint (fun _ => 0) paintCexState ≠ paint (fun _ => 1) paintCexState := by
  intro he
  have hr : ((paint (fun _ => 0) paintCexState).signalChannels.getD 0
      ChannelRender.empty).readout =
      ((paint (fun _ => 1) paintCexState).signalChannels.getD 0
      ChannelRender.empty).readout := by rw [he]
  revert hr
  decide

/-- C2 amended: `paint` is a pure function of the display state
*together with* the values `rand()` returns for the per-channel
readouts: two invocations agree whenever their `rand()` values agree
modulo 512 on the drawn channels, and each channel's numeric readout is
the buffered sample at index `rand() % 512` — so the readout is drawn
from the buffered samples but is not determined by the display state
alone. -/
theorem C2_paint_det (s : DisplayState) (r1 r2 : Nat → Nat)
    (h : ∀ ch, ch < s.lastNumChannels → r1 ch % 512 = r2 ch % 512) :
    paint r1 s = paint r2 s ∧
    (s.isSignalDisplay = true → ∀ ch, ch < s.lastNumChannels →
      ((paint r1 s).signalChannels.getD ch ChannelRender.empty).readout =
        sampleAt s ch (r1 ch % 512)) := by
  constructor
  · by_cases hsig : s.isSignalDisplay = true
    · have hch := renderChannelsAux_congr s r1 r2
        ((toRectQ (reducedRect (localBounds s) 8)).h) s.lastNumChannels 0
        (toRectQ (reducedRect (localBounds s) 8))
        (fun k hk1 hk2 => h k (by omega))
      simp only [paint, hsig]
      rw [hch]
    · have hf : s.isSignalDisplay = false := by simpa using hsig
      simp [paint, hf]
  · intro hsig ch hch
    simp only [paint]
    rw [if_pos hsig]
    dsimp only
    have hr := renderChannelsAux_readout s r1
      ((toRectQ (reducedRect (localBounds s) 8)).h) s.lastNumChannels 0 ch
      (toRectQ (reducedRect (localBounds s) 8)) hch
    rw [show (0 : Nat) + ch = ch from by omega] at hr
    exact hr

theorem C2_witness :
    (∀ ch, ch < paintCexState.lastNumChannels →
      (fun _ => (1 : Nat)) ch % 512 = (fun _ => (513 : Nat)) ch % 512) ∧
    paint (fun _ => 1) paintCexState = paint (fun _ => 513) paintCexState ∧
    ((paint (fun _ => (1 : Nat)) paintCexState).signalChannels.getD 0
        ChannelRender.empty).readout =
      sampleAt paintCexState 0 (1 % 512) :=
  have h := C2_paint_det paintCexState (fun _ => 1) (fun _ => 513) (by decide)
  ⟨by decide, h.1, h.2 rfl 0 (by decide)⟩

/-- A hover-entry text update with unchanged content width at a new
mouse position: the message connection is re-adopted at screen position
`(200, 100)` from `msgActiveState` (whose bounds were computed for the
same message at `(100, 100)`). The inner `updateTextString(true)` call
takes the `|| isHoverEntered` branch of the widening test and
recomputes the bounds even though `totalStringWidth` has not grown. -/
def reposState : DisplayState :=
  setConnection env0 (some msgConn) ⟨200, 100⟩ msgActiveState

/-- C10 counterexample: the claim says the bounds rectangle is
recomputed only when the new content is wider — every text update whose
total width does not exceed the current width leaves the bounds
unchanged. But a hover-entry text update (`updateTextString` with
`isHoverEntered = true`, as performed by `setConnection` on
activation) recomputes unconditionally: re-adopting the same message
connection at a new mouse position is a text update whose total width
(38) does not exceed the current width (38), yet the bounds move (the
rectangle is re-centred on the new position). -/
theorem C10_counterexample :
    textTotalWidth env0 msgConn ≤ msgActiveState.bounds.w ∧
    reposState.bounds ≠ msgActiveState.bounds := by
  decide

/-- C10 amended: (a) a repaint-driven text refresh (`updateTextString`
with `isHoverEntered = false`) whose computed total width does not
exceed the current width leaves the bounds untouched — on that path the
rectangle is only recomputed for wider content; (b) a hover-entry text
update (`isHoverEntered = true`) recomputes the bounds from the content
size unconditionally, via `updateBoundsFromProposed`, even when the
content is not wider; (c) whenever `updateBoundsFromProposed` does
recompute the rectangle, the result lies within the parent component's
local bounds. -/
theorem C10_bounds_amended (env : Env) (s : DisplayState) :
    (∀ c : Conn, s.activeConnection = some c →
      textTotalWidth env c ≤ s.bounds.w →
      (updateTextString env false s).bounds = s.bounds) ∧
    (∀ c : Conn, s.activeConnection = some c →
      (updateTextString env true s).bounds =
        (updateBoundsFromProposed env
          (Rect.mk 0 0 (textTotalWidth env c) 36) s).bounds) ∧
    (∀ r : Rect,
      rectWithin ((updateBoundsFromProposed env r s).bounds)
        (parentLocalBounds env)) := by
  refine ⟨?_, ?_, ?_⟩
  · intro c hc hle
    unfold updateTextString
    rw [hc]
    dsimp only
    have hno : ¬ ((layoutTokens env (Int.tdiv env.parentWidth 2)
        (effectiveMessage c).1 (effectiveMessage c).2).2 > s.bounds.w ∨
        (false = true)) := by
      rintro (hlt | hf)
      · exact absurd hlt (not_lt.mpr hle)
      · cases hf
    rw [if_neg hno]
  · intro c hc
    unfold updateTextString
    rw [hc]
    dsimp only
    rw [if_pos (Or.inr rfl)]
    rfl
  · intro r
    exact constrainedWithin_within _ _

theorem C10_witness :
    (msgActiveState.activeConnection = some msgConn ∧
      textTotalWidth env0 msgConn ≤ msgActiveState.bounds.w ∧
      (updateTextString env0 false msgActiveState).bounds =
        msgActiveState.bounds) ∧
    ((updateTextString env0 true msgActiveState).bounds =
      (updateBoundsFromProposed env0
        (Rect.mk 0 0 (textTotalWidth env0 msgConn) 36) msgActiveState).bounds) ∧
    rectWithin
      ((updateBoundsFromProposed env0 (Rect.mk 0 0 100 36) initState).bounds)
      (parentLocalBounds env0) :=
  ⟨⟨by decide, by decide,
    (C10_bounds_amended env0 msgActiveState).1 msgConn (by decide) (by decide)⟩,
   (C10_bounds_amended env0 msgActiveState).2.1 msgConn (by decide),
   (C10_bounds_amended env0 initState).2.2 (Rect.mk 0 0 100 36)⟩

end ConnMsg
